import Mathlib

/-!
Shallow embedding of `src/create_jwt.js` (a Deno module issuing an HS256 JWT)
together with the platform primitives it calls:

* `TextEncoder.encode`            → `utf8Encode`
* `JSON.parse` / `JSON.stringify` → `jsonParse` / `Json.stringify`
* `crypto.subtle.importKey`       → `importKeyHmacSha256`
* `crypto.subtle.sign` (HMAC)     → `hmacSha256` (full SHA-256 implementation)
* djwt v3.0.2 `create` / `getNumericDate` → `Djwtv3.create` / `getNumericDate`

JSON values are modelled by the inductive `Json`.  JavaScript numbers are
IEEE-754 doubles; the embedding covers the integer-valued numerals that
actually occur in this program (the injected `exp` claim and integer literals
in caller payloads).  Fractional / exponent numerals, numerals beyond 2^53,
and lone-surrogate strings are outside the model: `jsonParse` returns `none`
on them.  Time is passed explicitly: `nowMs` stands for `Date.now()`
(milliseconds since the UNIX epoch).
-/

/-- JSON value tree, as produced by `JSON.parse`.  Objects keep their
property order (JavaScript objects preserve insertion order for string
keys; the special ordering of integer-like keys is not modelled). -/
inductive Json where
  | null
  | bool (b : Bool)
  | num (n : Int)
  | str (s : String)
  | arr (elems : List Json)
  | obj (members : List (String × Json))

/-- Errors `main` can surface, one per raising site in the source:
`keyImportError` is the `DataError` from `crypto.subtle.importKey`
(line 10), `jsonSyntaxError` the `SyntaxError` from `JSON.parse`
(line 25), `expAssignTypeError` the strict-mode `TypeError` from
`payloadData.exp = ...` on a non-object (line 27). -/
inductive JwtError where
  | keyImportError
  | jsonSyntaxError
  | expAssignTypeError
deriving DecidableEq

/-! ## UTF-8 (TextEncoder.encode) -/

/-- UTF-8 encoding of a single Unicode scalar value, as a list of bytes. -/
def utf8Char (c : Char) : List Nat :=
  let n := c.toNat
  if n < 128 then [n]
  else if n < 2048 then [192 + n / 64, 128 + n % 64]
  else if n < 65536 then [224 + n / 4096, 128 + n / 64 % 64, 128 + n % 64]
  else [240 + n / 262144, 128 + n / 4096 % 64, 128 + n / 64 % 64, 128 + n % 64]

/-- `new TextEncoder().encode(s)`: UTF-8 bytes of a string. -/
def utf8Encode (s : String) : List Nat :=
  (s.data.map utf8Char).flatten

/-! ## base64url without padding (djwt's `encodeBase64Url`) -/

/-- The base64url alphabet. -/
def b64Alphabet : List Char :=
  ['A','B','C','D','E','F','G','H','I','J','K','L','M',
   'N','O','P','Q','R','S','T','U','V','W','X','Y','Z',
   'a','b','c','d','e','f','g','h','i','j','k','l','m',
   'n','o','p','q','r','s','t','u','v','w','x','y','z',
   '0','1','2','3','4','5','6','7','8','9','-','_']

/-- Character for a 6-bit group. -/
def b64Char (i : Nat) : Char := b64Alphabet.getD i 'A'

/-- base64url of a byte list, 3 bytes → 4 chars, trailing group of 1 byte
→ 2 chars and of 2 bytes → 3 chars, no `=` padding. -/
def b64uChars : List Nat → List Char
  | [] => []
  | [x] => [b64Char (x / 4), b64Char (x % 4 * 16)]
  | [x, y] => [b64Char (x / 4), b64Char (x % 4 * 16 + y / 16), b64Char (y % 16 * 4)]
  | x :: y :: z :: rest =>
    b64Char (x / 4) :: b64Char (x % 4 * 16 + y / 16) ::
      b64Char (y % 16 * 4 + z / 64) :: b64Char (z % 64) :: b64uChars rest

/-- base64url encoding as a string. -/
def b64u (bytes : List Nat) : String := (b64uChars bytes).asString

/-- Index of a character in the base64url alphabet. -/
def b64Idx (c : Char) : Nat := b64Alphabet.indexOf c

/-- Inverse of `b64uChars` on its range (standard base64url decoding,
used to state the "segment decodes to ..." claims). -/
def b64uDecodeChars : List Char → List Nat
  | c1 :: c2 :: c3 :: c4 :: rest =>
    (b64Idx c1 * 4 + b64Idx c2 / 16) ::
      (b64Idx c2 % 16 * 16 + b64Idx c3 / 4) ::
      (b64Idx c3 % 4 * 64 + b64Idx c4) :: b64uDecodeChars rest
  | [c1, c2] => [b64Idx c1 * 4 + b64Idx c2 / 16]
  | [c1, c2, c3] => [b64Idx c1 * 4 + b64Idx c2 / 16, b64Idx c2 % 16 * 16 + b64Idx c3 / 4]
  | _ => []

/-- base64url decoding of a string. -/
def b64uDecode (s : String) : List Nat := b64uDecodeChars s.data

/-! ## SHA-256 and HMAC-SHA256 (crypto.subtle.sign with HMAC/SHA-256) -/

/-- Truncate to 32 bits. -/
def w32 (n : Nat) : Nat := n % 4294967296

/-- Rotate a 32-bit word right by `k`. -/
def rotr32 (k x : Nat) : Nat := w32 (x >>> k ||| x <<< (32 - k))

/-- SHA-256 `Ch` function. -/
def shaCh (x y z : Nat) : Nat := (x &&& y) ^^^ ((x ^^^ 4294967295) &&& z)

/-- SHA-256 `Maj` function. -/
def shaMaj (x y z : Nat) : Nat := (x &&& y) ^^^ (x &&& z) ^^^ (y &&& z)

/-- SHA-256 big sigma 0. -/
def shaS0 (x : Nat) : Nat := rotr32 2 x ^^^ rotr32 13 x ^^^ rotr32 22 x

/-- SHA-256 big sigma 1. -/
def shaS1 (x : Nat) : Nat := rotr32 6 x ^^^ rotr32 11 x ^^^ rotr32 25 x

/-- SHA-256 small sigma 0. -/
def shaLs0 (x : Nat) : Nat := rotr32 7 x ^^^ rotr32 18 x ^^^ (x >>> 3)

/-- SHA-256 small sigma 1. -/
def shaLs1 (x : Nat) : Nat := rotr32 17 x ^^^ rotr32 19 x ^^^ (x >>> 10)

/-- SHA-256 round constants. -/
def shaK : List Nat :=
  [1116352408, 1899447441, 3049323471, 3921009573, 961987163, 1508970993,
   2453635748, 2870763221, 3624381080, 310598401, 607225278, 1426881987,
   1925078388, 2162078206, 2614888103, 3248222580, 3835390401, 4022224774,
   264347078, 604807628, 770255983, 1249150122, 1555081692, 1996064986,
   2554220882, 2821834349, 2952996808, 3210313671, 3336571891, 3584528711,
   113926993, 338241895, 666307205, 773529912, 1294757372, 1396182291,
   1695183700, 1986661051, 2177026350, 2456956037, 2730485921, 2820302411,
   3259730800, 3345764771, 3516065817, 3600352804, 4094571909, 275423344,
   430227734, 506948616, 659060556, 883997877, 958139571, 1322822218,
   1537002063, 1747873779, 1955562222, 2024104815, 2227730452, 2361852424,
   2428436474, 2756734187, 3204031479, 3329325298]

/-- 64-bit big-endian byte representation. -/
def be64 (n : Nat) : List Nat :=
  [n / 72057594037927936 % 256, n / 281474976710656 % 256,
   n / 1099511627776 % 256, n / 4294967296 % 256,
   n / 16777216 % 256, n / 65536 % 256, n / 256 % 256, n % 256]

/-- 32-bit big-endian byte representation. -/
def be32 (n : Nat) : List Nat :=
  [n / 16777216 % 256, n / 65536 % 256, n / 256 % 256, n % 256]

/-- SHA-256 message padding: append `0x80`, zeros to 56 mod 64, then the
64-bit big-endian bit length. -/
def sha256Pad (msg : List Nat) : List Nat :=
  msg ++ 128 :: List.replicate ((119 - msg.length % 64) % 64) 0 ++ be64 (8 * msg.length)

/-- Group bytes into big-endian 32-bit words. -/
def bytesToWords : List Nat → List Nat
  | a :: b :: c :: d :: rest => (a * 16777216 + b * 65536 + c * 256 + d) :: bytesToWords rest
  | _ => []

/-- Extend the 16-word message schedule by `fuel` further words. -/
def shaExtendFrom (w : List Nat) : Nat → List Nat
  | 0 => w
  | fuel + 1 =>
    let t := w.length
    shaExtendFrom
      (w ++ [w32 (shaLs1 (w.getD (t - 2) 0) + w.getD (t - 7) 0 +
        shaLs0 (w.getD (t - 15) 0) + w.getD (t - 16) 0)]) fuel

/-- Full 64-entry message schedule of one 64-byte block. -/
def shaSchedule (block : List Nat) : List Nat := shaExtendFrom (bytesToWords block) 48

/-- SHA-256 working state (eight 32-bit words). -/
structure Sha256State where
  a : Nat
  b : Nat
  c : Nat
  d : Nat
  e : Nat
  f : Nat
  g : Nat
  h : Nat

/-- One SHA-256 compression round. -/
def shaRound (st : Sha256State) (kw : Nat × Nat) : Sha256State :=
  let t1 := w32 (st.h + shaS1 st.e + shaCh st.e st.f st.g + kw.1 + kw.2)
  let t2 := w32 (shaS0 st.a + shaMaj st.a st.b st.c)
  ⟨w32 (t1 + t2), st.a, st.b, st.c, w32 (st.d + t1), st.e, st.f, st.g⟩

/-- Compress one 64-byte block into the running hash state. -/
def shaCompress (h0 : Sha256State) (block : List Nat) : Sha256State :=
  let st := (shaK.zip (shaSchedule block)).foldl shaRound h0
  ⟨w32 (h0.a + st.a), w32 (h0.b + st.b), w32 (h0.c + st.c), w32 (h0.d + st.d),
   w32 (h0.e + st.e), w32 (h0.f + st.f), w32 (h0.g + st.g), w32 (h0.h + st.h)⟩

/-- Split into 64-byte chunks. -/
def chunks64 : List Nat → List (List Nat)
  | [] => []
  | x :: rest => ((x :: rest).take 64) :: chunks64 ((x :: rest).drop 64)
termination_by l => l.length
decreasing_by simp [List.length_drop]; omega

/-- SHA-256 of a byte list (FIPS 180-4). -/
def sha256 (msg : List Nat) : List Nat :=
  let init : Sha256State :=
    ⟨1779033703, 3144134277, 1013904242, 2773480762,
     1359893119, 2600822924, 528734635, 1541459225⟩
  let fin := (chunks64 (sha256Pad msg)).foldl shaCompress init
  be32 fin.a ++ be32 fin.b ++ be32 fin.c ++ be32 fin.d ++
    be32 fin.e ++ be32 fin.f ++ be32 fin.g ++ be32 fin.h

/-- HMAC-SHA256 (RFC 2104) with a 64-byte block size, as computed by
`crypto.subtle.sign({name:"HMAC", hash:"SHA-256"}, key, msg)`. -/
def hmacSha256 (key msg : List Nat) : List Nat :=
  let k0 := if 64 < key.length then sha256 key else key
  let kp := k0 ++ List.replicate (64 - k0.length) 0
  sha256 ((kp.map (fun b => b ^^^ 92)) ++ sha256 ((kp.map (fun b => b ^^^ 54)) ++ msg))

/-! ## JSON serialization (JSON.stringify, no spacing) -/

/-- Hexadecimal digit character (lowercase), as used by `\u00xx` escapes. -/
def hexDigit (n : Nat) : Char :=
  if n < 10 then Char.ofNat (48 + n) else Char.ofNat (87 + n)

/-- JSON string escaping of one character, as performed by
`JSON.stringify`: `"` and `\` get a backslash, the named control escapes
are used for 8, 9, 10, 12, 13, other control characters become `\u00xx`. -/
def escapeChar (c : Char) : String :=
  if c = '"' then "\\\""
  else if c = '\\' then "\\\\"
  else if c.toNat = 8 then "\\b"
  else if c.toNat = 9 then "\\t"
  else if c.toNat = 10 then "\\n"
  else if c.toNat = 12 then "\\f"
  else if c.toNat = 13 then "\\r"
  else if c.toNat < 32 then "\\u00" ++ (String.singleton (hexDigit (c.toNat / 16))) ++ (String.singleton (hexDigit (c.toNat % 16)))
  else String.singleton c

/-- Escape a whole string. -/
def escapeString (s : String) : String := String.join (s.data.map escapeChar)

/-- A JSON string literal: quotes around the escaped text. -/
def quoteString (s : String) : String := "\"" ++ escapeString s ++ "\""

/-- Decimal numeral of a natural number, most significant digit first
(JavaScript's decimal printing of integral numbers). -/
def natDec (n : Nat) : String :=
  if n = 0 then "0"
  else ((Nat.digits 10 n).reverse.map fun d => Char.ofNat (48 + d)).asString

/-- Decimal numeral of an integer. -/
def intDec (i : Int) : String :=
  if i < 0 then "-" ++ natDec i.natAbs else natDec i.natAbs

mutual

/-- `JSON.stringify` without spacing (the form djwt uses). -/
def Json.stringify : Json → String
  | .null => "null"
  | .bool true => "true"
  | .bool false => "false"
  | .num n => intDec n
  | .str s => quoteString s
  | .arr elems => "[" ++ stringifyElems elems ++ "]"
  | .obj members => "\x7b" ++ stringifyMembers members ++ "\x7d"

/-- Array elements joined by `,` (Array.prototype.join semantics). -/
def stringifyElems : List Json → String
  | [] => ""
  | v :: rest =>
    Json.stringify v ++ (if rest.isEmpty then "" else ",") ++ stringifyElems rest

/-- Object members `"key":value` joined by `,`. -/
def stringifyMembers : List (String × Json) → String
  | [] => ""
  | (k, v) :: rest =>
    quoteString k ++ ":" ++ Json.stringify v ++ (if rest.isEmpty then "" else ",") ++
      stringifyMembers rest

end

/-! ## JSON parsing (JSON.parse) -/

/-- Skip JSON whitespace (space, tab, line feed, carriage return). -/
def skipWs : List Char → List Char
  | c :: rest =>
    if c = ' ' ∨ c = '\t' ∨ c = '\n' ∨ c = '\r' then skipWs rest else c :: rest
  | [] => []

/-- Value of a hexadecimal digit character. -/
def hexVal (c : Char) : Option Nat :=
  if '0' ≤ c ∧ c ≤ '9' then some (c.toNat - 48)
  else if 'a' ≤ c ∧ c ≤ 'f' then some (c.toNat - 87)
  else if 'A' ≤ c ∧ c ≤ 'F' then some (c.toNat - 55)
  else none

/-- Parse the body of a JSON string literal after the opening quote,
returning the string and the rest of the input.  Handles the JSON
escapes including `\uXXXX` and surrogate pairs; a lone surrogate is not
representable as a Lean `Char` and is outside the model.  `fuel` is
initialized to the input length; every step consumes at least one
character, so fuel never runs out on an input that has a closing quote. -/
def parseStringBody : Nat → List Char → List Char → Option (String × List Char)
  | 0, _, _ => none
  | _ + 1, [], _ => none
  | fuel + 1, c :: rest, acc =>
    if c = '"' then some (acc.reverse.asString, rest)
    else if c = '\\' then
      match rest with
      | [] => none
      | e :: rest2 =>
        if e = '"' then parseStringBody fuel rest2 ('"' :: acc)
        else if e = '\\' then parseStringBody fuel rest2 ('\\' :: acc)
        else if e = '/' then parseStringBody fuel rest2 ('/' :: acc)
        else if e = 'b' then parseStringBody fuel rest2 (Char.ofNat 8 :: acc)
        else if e = 'f' then parseStringBody fuel rest2 (Char.ofNat 12 :: acc)
        else if e = 'n' then parseStringBody fuel rest2 ('\n' :: acc)
        else if e = 'r' then parseStringBody fuel rest2 ('\r' :: acc)
        else if e = 't' then parseStringBody fuel rest2 ('\t' :: acc)
        else if e = 'u' then
          match rest2 with
          | h1 :: h2 :: h3 :: h4 :: rest3 =>
            match hexVal h1, hexVal h2, hexVal h3, hexVal h4 with
            | some a, some b, some c2, some d =>
              let n := a * 4096 + b * 256 + c2 * 16 + d
              if 55296 ≤ n ∧ n < 56320 then
                match rest3 with
                | '\\' :: 'u' :: g1 :: g2 :: g3 :: g4 :: rest4 =>
                  match hexVal g1, hexVal g2, hexVal g3, hexVal g4 with
                  | some a2, some b2, some c3, some d2 =>
                    let m := a2 * 4096 + b2 * 256 + c3 * 16 + d2
                    if 56320 ≤ m ∧ m < 57344 then
                      parseStringBody fuel rest4
                        (Char.ofNat (65536 + (n - 55296) * 1024 + (m - 56320)) :: acc)
                    else none
                  | _, _, _, _ => none
                | _ => none
              else if 56320 ≤ n ∧ n < 57344 then none
              else parseStringBody fuel rest3 (Char.ofNat n :: acc)
            | _, _, _, _ => none
          | _ => none
        else none
    else if c.toNat < 32 then none
    else parseStringBody fuel rest (c :: acc)

/-- Consume a run of decimal digits, folding them onto `acc`. -/
def parseDigitsAcc : List Char → Nat → Nat × List Char
  | c :: rest, acc =>
    if '0' ≤ c ∧ c ≤ '9' then parseDigitsAcc rest (acc * 10 + (c.toNat - 48))
    else (acc, c :: rest)
  | [], acc => (acc, [])

/-- Parse an unsigned JSON integer numeral: `0`, or a nonzero digit
followed by digits.  Fractional and exponent parts (IEEE-754 values)
are outside the model. -/
def parseUNumber : List Char → Option (Nat × List Char)
  | c :: rest =>
    if c = '0' then some (0, rest)
    else if '1' ≤ c ∧ c ≤ '9' then some (parseDigitsAcc rest (c.toNat - 48))
    else none
  | [] => none

/-- Parse a JSON number (optionally signed). -/
def parseNumber (cs : List Char) : Option (Int × List Char) :=
  match cs with
  | '-' :: rest => (parseUNumber rest).map fun p => (-(p.1 : Int), p.2)
  | _ => (parseUNumber cs).map fun p => ((p.1 : Int), p.2)

/-- JavaScript property assignment on the member list of an object:
if the key is present its value is replaced in place, otherwise the
pair is appended.  This is both how `JSON.parse` treats duplicate keys
(last value wins, first position kept) and what `payloadData.exp = v`
does. -/
def setKey : List (String × Json) → String → Json → List (String × Json)
  | [], k, v => [(k, v)]
  | (k', v') :: rest, k, v =>
    if k' = k then (k, v) :: rest else (k', v') :: setKey rest k v

mutual

/-- Parse one JSON value (leading whitespace allowed).  `fuel` bounds the
call depth; at most two nested calls happen per consumed input character,
so `2 * length + 2` fuel never runs out (see `jsonParse`). -/
def parseValue : Nat → List Char → Option (Json × List Char)
  | 0, _ => none
  | fuel + 1, cs =>
    match skipWs cs with
    | [] => none
    | c :: rest =>
      if c = '{' then
        match skipWs rest with
        | '}' :: rest2 => some (.obj [], rest2)
        | rest2 => parseMembers fuel rest2 []
      else if c = '[' then
        match skipWs rest with
        | ']' :: rest2 => some (.arr [], rest2)
        | rest2 => parseElements fuel rest2 []
      else if c = '"' then
        (parseStringBody rest.length rest []).map fun p => (.str p.1, p.2)
      else if c = 't' then
        match rest with
        | 'r' :: 'u' :: 'e' :: rest2 => some (.bool true, rest2)
        | _ => none
      else if c = 'f' then
        match rest with
        | 'a' :: 'l' :: 's' :: 'e' :: rest2 => some (.bool false, rest2)
        | _ => none
      else if c = 'n' then
        match rest with
        | 'u' :: 'l' :: 'l' :: rest2 => some (.null, rest2)
        | _ => none
      else (parseNumber (c :: rest)).map fun p => (.num p.1, p.2)

/-- Parse the elements of a non-empty JSON array after the opening
bracket (and after establishing the array is non-empty). -/
def parseElements : Nat → List Char → List Json → Option (Json × List Char)
  | 0, _, _ => none
  | fuel + 1, cs, acc =>
    match parseValue fuel cs with
    | none => none
    | some (v, rest) =>
      match skipWs rest with
      | ',' :: rest2 => parseElements fuel rest2 (v :: acc)
      | ']' :: rest2 => some (.arr (v :: acc).reverse, rest2)
      | _ => none

/-- Parse the members of a non-empty JSON object after the opening
brace.  Duplicate keys follow JavaScript semantics via `setKey`. -/
def parseMembers : Nat → List Char → List (String × Json) → Option (Json × List Char)
  | 0, _, _ => none
  | fuel + 1, cs, acc =>
    match skipWs cs with
    | '"' :: rest =>
      match parseStringBody rest.length rest [] with
      | none => none
      | some (k, rest2) =>
        match skipWs rest2 with
        | ':' :: rest3 =>
          match parseValue fuel rest3 with
          | none => none
          | some (v, rest4) =>
            match skipWs rest4 with
            | ',' :: rest5 => parseMembers fuel rest5 (setKey acc k v)
            | '}' :: rest5 => some (.obj (setKey acc k v), rest5)
            | _ => none
        | _ => none
    | _ => none

end

/-- `JSON.parse`: parse a complete JSON text (the modelled fragment),
requiring the whole input to be consumed up to trailing whitespace. -/
def jsonParse (s : String) : Option Json :=
  match parseValue (2 * s.data.length + 2) s.data with
  | some (v, rest) => if skipWs rest = [] then some v else none
  | none => none

/-! ## The platform and library operations used by `main` -/

/-- `crypto.subtle.importKey("raw", keyBuf, {name:"HMAC", hash:"SHA-256"},
true, ["sign","verify"])`: per the Web Cryptography specification, HMAC
key import throws a `DataError` exactly when the key data is empty;
any other byte length is accepted.  The usable key is the raw bytes. -/
def importKeyHmacSha256 (keyBytes : List Nat) : Except JwtError (List Nat) :=
  if keyBytes = [] then .error .keyImportError else .ok keyBytes

/-- djwt v3.0.2 `getNumericDate(exp)` for a numeric argument:
`Math.round((Date.now() + exp * 1000) / 1000)`, i.e. round-half-up of
the millisecond clock plus the lifetime, in seconds. -/
def getNumericDate (expSec nowMs : Nat) : Nat :=
  (nowMs + expSec * 1000 + 500) / 1000

namespace Djwtv3

/-- djwt v3.0.2 `createSigningInput`:
`b64u(utf8(JSON.stringify(header))) + "." + b64u(utf8(JSON.stringify(payload)))`. -/
def createSigningInput (header payload : Json) : String :=
  b64u (utf8Encode header.stringify) ++ "." ++ b64u (utf8Encode payload.stringify)

/-- djwt v3.0.2 `create(header, payload, key)` for a non-null HMAC
SHA-256 key and `alg: "HS256"` (the algorithm/key consistency check
passes for that combination): the signing input followed by `.` and the
base64url of the HMAC-SHA256 signature of the signing input's bytes.
The `Payload` object constraint is a compile-time type only; `create`
performs no runtime check on the payload value. -/
def create (header payload : Json) (key : List Nat) : String :=
  createSigningInput header payload ++ "." ++
    b64u (hmacSha256 key (utf8Encode (createSigningInput header payload)))

end Djwtv3

/-! ## The program: `main` from src/create_jwt.js -/

/-- Result of a successful `main` call: the returned token and the lines
written to the console (`console.log(token)` on line 30 is the only
output statement). -/
structure MainResult where
  token : String
  consoleOut : List String
deriving DecidableEq

/-- The fixed header object `{alg: "HS256", typ: "JWT"}` from lines 18-23. -/
def jwtHeader : Json := .obj [("alg", .str "HS256"), ("typ", .str "JWT")]

/-- `main({secret_key, payload})` from src/create_jwt.js, with the
`Date.now()` reading passed explicitly as `nowMs`.  Mirrors the source
order: import the secret's UTF-8 bytes as an HMAC key (lines 7-16),
parse the payload JSON (line 25), assign
`payloadData.exp = getNumericDate(1000)` (line 27; a strict-mode
`TypeError` when `payloadData` is `null` or a primitive, and a dropped
expando property - invisible to `JSON.stringify` - when it is an
array), then build the token with djwt's `create` (line 29) and log it
(line 30). -/
def CreateJwt.main (secret_key payload : String) (nowMs : Nat) : Except JwtError MainResult :=
  let keyBuf := utf8Encode secret_key
  match importKeyHmacSha256 keyBuf with
  | .error e => .error e
  | .ok key =>
    match jsonParse payload with
    | none => .error .jsonSyntaxError
    | some payloadData =>
      match
        (match payloadData with
         | .obj members => Except.ok (Json.obj (setKey members "exp" (.num (getNumericDate 1000 nowMs))))
         | .arr elems => Except.ok (Json.arr elems)
         | _ => Except.error JwtError.expAssignTypeError) with
      | .error e => .error e
      | .ok payloadData2 =>
        let token := Djwtv3.create jwtHeader payloadData2 key
        .ok ⟨token, [token]⟩

/-- A parsed payload on which `payloadData.exp = ...` raises a
strict-mode `TypeError`: `null` or a primitive (boolean, number,
string).  Objects and arrays accept the assignment. -/
def jsPrimitive : Json → Bool
  | .null => true
  | .bool _ => true
  | .num _ => true
  | .str _ => true
  | .arr _ => false
  | .obj _ => false

/-- The exact serialized header, `JSON.stringify({alg:"HS256",typ:"JWT"})`. -/
def headerJSONText : String := "\x7b\"alg\":\"HS256\",\"typ\":\"JWT\"\x7d"

/-! ## Helper lemmas -/

theorem utf8Char_ne_nil (c : Char) : utf8Char c ≠ [] := by
  unfold utf8Char
  dsimp only
  split_ifs <;> simp

theorem utf8Encode_eq_nil_iff (s : String) : utf8Encode s = [] ↔ s = "" := by
  constructor
  · intro h
    rcases s with ⟨l⟩
    cases l with
    | nil => rfl
    | cons c cs =>
      exfalso
      have : utf8Char c ++ (List.map utf8Char cs).flatten = [] := h
      exact utf8Char_ne_nil c (List.append_eq_nil.mp this).1
  · rintro rfl
    rfl

theorem utf8Encode_append (s t : String) :
    utf8Encode (s ++ t) = utf8Encode s ++ utf8Encode t := by
  unfold utf8Encode
  rw [String.data_append, List.map_append, List.flatten_append]

/-- The branch structure of `main` once the payload parses to an object. -/
theorem main_eq_ok_obj (S p : String) (t : Nat) (kvs : List (String × Json))
    (hS : S ≠ "") (hp : jsonParse p = some (.obj kvs)) :
    CreateJwt.main S p t =
      .ok ⟨Djwtv3.create jwtHeader
            (.obj (setKey kvs "exp" (.num (getNumericDate 1000 t)))) (utf8Encode S),
          [Djwtv3.create jwtHeader
            (.obj (setKey kvs "exp" (.num (getNumericDate 1000 t)))) (utf8Encode S)]⟩ := by
  have hk : utf8Encode S ≠ [] := fun h => hS ((utf8Encode_eq_nil_iff S).mp h)
  simp only [CreateJwt.main, importKeyHmacSha256, if_neg hk, hp]

/-- The branch structure of `main` once the payload parses to an array:
the `exp` expando is dropped and the original array is signed. -/
theorem main_eq_ok_arr (S p : String) (t : Nat) (xs : List Json)
    (hS : S ≠ "") (hp : jsonParse p = some (.arr xs)) :
    CreateJwt.main S p t =
      .ok ⟨Djwtv3.create jwtHeader (.arr xs) (utf8Encode S),
          [Djwtv3.create jwtHeader (.arr xs) (utf8Encode S)]⟩ := by
  have hk : utf8Encode S ≠ [] := fun h => hS ((utf8Encode_eq_nil_iff S).mp h)
  simp only [CreateJwt.main, importKeyHmacSha256, if_neg hk, hp]

/-- `main` with an unparsable payload fails at `JSON.parse`. -/
theorem main_eq_err_parse (S p : String) (t : Nat)
    (hS : S ≠ "") (hp : jsonParse p = none) :
    CreateJwt.main S p t = .error .jsonSyntaxError := by
  have hk : utf8Encode S ≠ [] := fun h => hS ((utf8Encode_eq_nil_iff S).mp h)
  simp only [CreateJwt.main, importKeyHmacSha256, if_neg hk, hp]

/-- `main` with a payload parsing to `null` or a primitive fails at the
`payloadData.exp = ...` assignment. -/
theorem main_eq_err_prim (S p : String) (t : Nat) (v : Json)
    (hS : S ≠ "") (hp : jsonParse p = some v) (hv : jsPrimitive v = true) :
    CreateJwt.main S p t = .error .expAssignTypeError := by
  have hk : utf8Encode S ≠ [] := fun h => hS ((utf8Encode_eq_nil_iff S).mp h)
  cases v <;> simp_all [CreateJwt.main, importKeyHmacSha256, if_neg hk, hp, jsPrimitive]

/-- `main` with an empty secret fails at key import, before the payload
is even parsed. -/
theorem main_eq_err_key (p : String) (t : Nat) :
    CreateJwt.main "" p t = .error .keyImportError := by
  simp [CreateJwt.main, importKeyHmacSha256, utf8Encode]

theorem char_toNat_lt (c : Char) : c.toNat < 1114112 := by
  have h := c.valid
  rcases h with h | ⟨_, h2⟩
  · exact Nat.lt_trans h (by norm_num)
  · exact h2

theorem utf8Char_lt (c : Char) : ∀ b ∈ utf8Char c, b < 256 := by
  have hc := char_toNat_lt c
  intro b hb
  unfold utf8Char at hb
  dsimp only at hb
  split_ifs at hb with h1 h2 h3
  · simp only [List.mem_singleton] at hb
    omega
  · simp only [List.mem_cons, List.not_mem_nil, or_false] at hb
    rcases hb with rfl | rfl <;> omega
  · simp only [List.mem_cons, List.not_mem_nil, or_false] at hb
    rcases hb with rfl | rfl | rfl <;> omega
  · simp only [List.mem_cons, List.not_mem_nil, or_false] at hb
    rcases hb with rfl | rfl | rfl | rfl <;> omega

theorem utf8Encode_lt (s : String) : ∀ b ∈ utf8Encode s, b < 256 := by
  intro b hb
  unfold utf8Encode at hb
  rw [List.mem_flatten] at hb
  rcases hb with ⟨l, hl, hbl⟩
  rw [List.mem_map] at hl
  rcases hl with ⟨c, _, rfl⟩
  exact utf8Char_lt c b hbl

theorem b64Char_mem (i : Nat) : b64Char i ∈ b64Alphabet := by
  unfold b64Char
  by_cases h : i < b64Alphabet.length
  · rw [List.getD_eq_getElem _ _ h]
    exact List.getElem_mem h
  · rw [List.getD_eq_default _ _ (Nat.le_of_not_lt h)]
    decide

theorem b64Alphabet_ne_dot_pad : ∀ c ∈ b64Alphabet, c ≠ '.' ∧ c ≠ '=' := by decide

theorem b64uChars_subset (bs : List Nat) : ∀ c ∈ b64uChars bs, c ∈ b64Alphabet := by
  induction bs using b64uChars.induct with
  | case1 => intro c hc; simp [b64uChars] at hc
  | case2 x =>
    intro c hc
    simp only [b64uChars, List.mem_cons, List.mem_singleton, List.not_mem_nil, or_false] at hc
    rcases hc with rfl | rfl <;> exact b64Char_mem _
  | case3 x y =>
    intro c hc
    simp only [b64uChars, List.mem_cons, List.mem_singleton, List.not_mem_nil, or_false] at hc
    rcases hc with rfl | rfl | rfl <;> exact b64Char_mem _
  | case4 x y z rest ih =>
    intro c hc
    simp only [b64uChars, List.mem_cons] at hc
    rcases hc with rfl | rfl | rfl | rfl | hc
    · exact b64Char_mem _
    · exact b64Char_mem _
    · exact b64Char_mem _
    · exact b64Char_mem _
    · exact ih c hc

theorem b64Idx_b64Char : ∀ i < 64, b64Idx (b64Char i) = i := by decide

theorem data_asString (l : List Char) : (l.asString).data = l := rfl

theorem b64uDecodeChars_b64uChars (bs : List Nat) (hbs : ∀ b ∈ bs, b < 256) :
    b64uDecodeChars (b64uChars bs) = bs := by
  induction bs using b64uChars.induct with
  | case1 => rfl
  | case2 x =>
    have hx : x < 256 := hbs x (by simp)
    simp only [b64uChars, b64uDecodeChars]
    rw [b64Idx_b64Char _ (by omega), b64Idx_b64Char _ (by omega)]
    simp only [List.cons.injEq, and_true]
    omega
  | case3 x y =>
    have hx : x < 256 := hbs x (by simp)
    have hy : y < 256 := hbs y (by simp)
    simp only [b64uChars, b64uDecodeChars]
    rw [b64Idx_b64Char _ (by omega), b64Idx_b64Char _ (by omega),
      b64Idx_b64Char _ (by omega)]
    simp only [List.cons.injEq, and_true]
    omega
  | case4 x y z rest ih =>
    have hx : x < 256 := hbs x (by simp)
    have hy : y < 256 := hbs y (by simp)
    have hz : z < 256 := hbs z (by simp)
    have hrest : ∀ b ∈ rest, b < 256 := fun b hb => hbs b (by simp [hb])
    simp only [b64uChars, b64uDecodeChars]
    rw [b64Idx_b64Char _ (by omega), b64Idx_b64Char _ (by omega),
      b64Idx_b64Char _ (by omega), b64Idx_b64Char _ (by omega)]
    simp only [List.cons.injEq]
    refine ⟨by omega, by omega, by omega, ih hrest⟩

theorem b64uDecode_b64u (bs : List Nat) (hbs : ∀ b ∈ bs, b < 256) :
    b64uDecode (b64u bs) = bs := by
  unfold b64uDecode b64u
  rw [data_asString]
  exact b64uDecodeChars_b64uChars bs hbs

theorem b64u_inj (bs1 bs2 : List Nat) (h1 : ∀ b ∈ bs1, b < 256)
    (h2 : ∀ b ∈ bs2, b < 256) (he : b64u bs1 = b64u bs2) : bs1 = bs2 := by
  have : b64uDecode (b64u bs1) = b64uDecode (b64u bs2) := by rw [he]
  rwa [b64uDecode_b64u bs1 h1, b64uDecode_b64u bs2 h2] at this

theorem lookup_setKey_self (kvs : List (String × Json)) (k : String) (v : Json) :
    List.lookup k (setKey kvs k v) = some v := by
  induction kvs with
  | nil => simp [setKey, List.lookup]
  | cons kv rest ih =>
    rcases kv with ⟨k', v'⟩
    by_cases h : k' = k
    · subst h
      simp [setKey, List.lookup]
    · have hkk : (k == k') = false := beq_false_of_ne fun he => h he.symm
      simp [setKey, h, List.lookup, hkk, ih]

theorem lookup_setKey_ne (kvs : List (String × Json)) (k k' : String) (v : Json)
    (h : k' ≠ k) : List.lookup k' (setKey kvs k v) = List.lookup k' kvs := by
  induction kvs with
  | nil => simp [setKey, List.lookup, beq_false_of_ne h]
  | cons kv rest ih =>
    rcases kv with ⟨k2, v2⟩
    by_cases h2 : k2 = k
    · subst h2
      simp [setKey, List.lookup, beq_false_of_ne h]
    · simp only [setKey, if_neg h2, List.lookup]
      by_cases h3 : k' = k2
      · subst h3
        simp
      · simp [beq_false_of_ne h3, ih]

theorem filter_setKey (kvs : List (String × Json)) (k : String) (v : Json) :
    (setKey kvs k v).filter (fun q => q.1 != k) = kvs.filter (fun q => q.1 != k) := by
  induction kvs with
  | nil => simp [setKey]
  | cons kv rest ih =>
    rcases kv with ⟨k2, v2⟩
    by_cases h2 : k2 = k
    · subst h2
      simp [setKey, List.filter]
    · simp only [setKey, if_neg h2, List.filter, bne_iff_ne, ih]

theorem setKey_ne_nil (kvs : List (String × Json)) (k : String) (v : Json) :
    setKey kvs k v ≠ [] := by
  cases kvs with
  | nil => simp [setKey]
  | cons kv rest =>
    rcases kv with ⟨k2, v2⟩
    by_cases h2 : k2 = k <;> simp [setKey, h2]

theorem getNumericDate_eq (t : Nat) : getNumericDate 1000 t = (t + 500) / 1000 + 1000 := by
  unfold getNumericDate
  omega

/-- C7: `main` fails with the key-import error (`KeyDerivationFailure`)
exactly when the secret string is empty: the Web Crypto provider rejects
empty HMAC key material and accepts any non-empty UTF-8 byte sequence,
and key import happens before the payload is even parsed. -/
theorem C7_key_derivation_fails_iff_empty_secret (S p : String) (t : Nat) :
    CreateJwt.main S p t = .error .keyImportError ↔ S = "" := by
  constructor
  · intro h
    by_contra hS
    cases hp : jsonParse p with
    | none =>
      rw [main_eq_err_parse S p t hS hp] at h
      exact absurd h (by simp)
    | some v =>
      cases v with
      | null => rw [main_eq_err_prim S p t _ hS hp rfl] at h; exact absurd h (by simp)
      | bool b => rw [main_eq_err_prim S p t _ hS hp rfl] at h; exact absurd h (by simp)
      | num n => rw [main_eq_err_prim S p t _ hS hp rfl] at h; exact absurd h (by simp)
      | str s => rw [main_eq_err_prim S p t _ hS hp rfl] at h; exact absurd h (by simp)
      | arr xs => rw [main_eq_ok_arr S p t xs hS hp] at h; exact absurd h (by simp)
      | obj kvs => rw [main_eq_ok_obj S p t kvs hS hp] at h; exact absurd h (by simp)
  · rintro rfl
    exact main_eq_err_key p t

/-- C10: on every call, the console output of `main` is exactly one line
holding the very token string that is returned: `console.log(token)` is
the only output statement, and `main` is a pure function of its inputs
and the clock reading, so no other state is touched in the model. -/
theorem C10_console_log_is_exactly_the_returned_token (S p : String) (t : Nat) :
    (CreateJwt.main S p t).map (fun r => r.consoleOut) =
      (CreateJwt.main S p t).map (fun r => [r.token]) := by
  by_cases hS : S = ""
  · subst hS
    rw [main_eq_err_key p t]
    rfl
  · cases hp : jsonParse p with
    | none => rw [main_eq_err_parse S p t hS hp]; rfl
    | some v =>
      cases v with
      | null => rw [main_eq_err_prim S p t _ hS hp rfl]; rfl
      | bool b => rw [main_eq_err_prim S p t _ hS hp rfl]; rfl
      | num n => rw [main_eq_err_prim S p t _ hS hp rfl]; rfl
      | str s => rw [main_eq_err_prim S p t _ hS hp rfl]; rfl
      | arr xs => rw [main_eq_ok_arr S p t xs hS hp]; rfl
      | obj kvs => rw [main_eq_ok_obj S p t kvs hS hp]; rfl

/-- C9: a payload parsing to `null` or a scalar (number, string,
boolean) makes `main` fail with the strict-mode `TypeError` raised by
the `payloadData.exp = ...` assignment, not with a JSON parse error
(the parse hypothesis shows `JSON.parse` itself succeeded).  The secret
is assumed non-empty since key import precedes the assignment. -/
theorem C9_null_or_scalar_payload_fails_at_exp_assignment (S p : String) (t : Nat)
    (v : Json) (hS : S ≠ "") (hp : jsonParse p = some v) (hv : jsPrimitive v = true) :
    CreateJwt.main S p t = .error .expAssignTypeError ∧
      CreateJwt.main S p t ≠ .error .jsonSyntaxError := by
  refine ⟨main_eq_err_prim S p t v hS hp hv, ?_⟩
  rw [main_eq_err_prim S p t v hS hp hv]
  simp

theorem C9_witness :
    (("s" : String) ≠ "") ∧ jsonParse "null" = some .null ∧ jsPrimitive .null = true ∧
      (CreateJwt.main "s" "null" 0 = .error .expAssignTypeError ∧
        CreateJwt.main "s" "null" 0 ≠ .error .jsonSyntaxError) :=
  ⟨by decide, rfl, rfl,
    C9_null_or_scalar_payload_fails_at_exp_assignment "s" "null" 0 .null (by decide) rfl rfl⟩

/-- C5 counterexample: `issue(S, "[1,2,3]")` does NOT fail: the array
parses, the `exp` expando assignment on it succeeds (and is invisible to
serialization), and djwt's `create` signs it, so `main` returns a token. -/
theorem C5_counterexample_array_payload_is_signed :
    (CreateJwt.main "s" "[1,2,3]" 0).isOk = true := by
  rw [main_eq_ok_arr "s" "[1,2,3]" 0 [.num 1, .num 2, .num 3] (by decide) rfl]
  rfl

/-- C5 amended: with a usable (non-empty) secret, `main` fails with the
JSON parse error (`MalformedPayload`) exactly on texts the parser
rejects; it fails with the `exp`-assignment `TypeError` exactly on
texts parsing to `null` or a scalar; and it succeeds exactly on texts
parsing to an object or an array.  In particular an array payload does
not produce `MalformedPayload`; it is signed. -/
theorem C5_amended_failure_characterization (S p : String) (t : Nat) (hS : S ≠ "") :
    (CreateJwt.main S p t = .error .jsonSyntaxError ↔ jsonParse p = none) ∧
    (CreateJwt.main S p t = .error .expAssignTypeError ↔
      (∃ v, jsonParse p = some v ∧ jsPrimitive v = true)) ∧
    ((∃ r, CreateJwt.main S p t = .ok r) ↔
      (∃ v, jsonParse p = some v ∧ jsPrimitive v = false)) := by
  cases hp : jsonParse p with
  | none =>
    rw [main_eq_err_parse S p t hS hp]
    refine ⟨by simp, by simp, by simp⟩
  | some v =>
    cases v with
    | null =>
      rw [main_eq_err_prim S p t _ hS hp rfl]
      exact ⟨by simp [hp], by simp [hp, jsPrimitive], by simp [hp, jsPrimitive]⟩
    | bool b =>
      rw [main_eq_err_prim S p t _ hS hp rfl]
      exact ⟨by simp [hp], by simp [hp, jsPrimitive], by simp [hp, jsPrimitive]⟩
    | num n =>
      rw [main_eq_err_prim S p t _ hS hp rfl]
      exact ⟨by simp [hp], by simp [hp, jsPrimitive], by simp [hp, jsPrimitive]⟩
    | str s =>
      rw [main_eq_err_prim S p t _ hS hp rfl]
      exact ⟨by simp [hp], by simp [hp, jsPrimitive], by simp [hp, jsPrimitive]⟩
    | arr xs =>
      rw [main_eq_ok_arr S p t xs hS hp]
      exact ⟨by simp [hp], by simp [hp, jsPrimitive], by simp [hp, jsPrimitive]⟩
    | obj kvs =>
      rw [main_eq_ok_obj S p t kvs hS hp]
      exact ⟨by simp [hp], by simp [hp, jsPrimitive], by simp [hp, jsPrimitive]⟩

theorem C5_amended_witness :
    (("s" : String) ≠ "") ∧
      ((CreateJwt.main "s" "not json" 0 = .error .jsonSyntaxError ↔
          jsonParse "not json" = none) ∧
        (CreateJwt.main "s" "not json" 0 = .error .expAssignTypeError ↔
          (∃ v, jsonParse "not json" = some v ∧ jsPrimitive v = true)) ∧
        ((∃ r, CreateJwt.main "s" "not json" 0 = .ok r) ↔
          (∃ v, jsonParse "not json" = some v ∧ jsPrimitive v = false))) :=
  ⟨by decide, C5_amended_failure_characterization "s" "not json" 0 (by decide)⟩

/-- C3: on any successful object-payload call, the claims object that
gets serialized into the token is the parsed payload with `exp` set (via
JavaScript property assignment, replacing any caller-supplied value) to
`Math.round(Date.now() / 1000) + 1000`, i.e. the current UNIX second
plus the hardcoded 1000-second lifetime - whatever `exp` the caller
supplied. -/
theorem C3_exp_is_now_plus_1000_and_overwrites (S p : String) (t : Nat)
    (kvs : List (String × Json)) (hS : S ≠ "") (hp : jsonParse p = some (.obj kvs)) :
    ∃ r claims, CreateJwt.main S p t = .ok r ∧
      claims = setKey kvs "exp" (.num (getNumericDate 1000 t)) ∧
      r.token = Djwtv3.create jwtHeader (.obj claims) (utf8Encode S) ∧
      List.lookup "exp" claims = some (.num (((t + 500) / 1000 + 1000 : Nat) : Int)) := by
  refine ⟨_, _, main_eq_ok_obj S p t kvs hS hp, rfl, rfl, ?_⟩
  rw [lookup_setKey_self]
  norm_num [getNumericDate_eq]

theorem C3_witness :
    (("mysecret" : String) ≠ "") ∧
      jsonParse "\x7b\"exp\":5\x7d" = some (.obj [("exp", .num 5)]) ∧
      (∃ r claims, CreateJwt.main "mysecret" "\x7b\"exp\":5\x7d" 123456 = .ok r ∧
        claims = setKey [("exp", Json.num 5)] "exp" (.num (getNumericDate 1000 123456)) ∧
        r.token = Djwtv3.create jwtHeader (.obj claims) (utf8Encode "mysecret") ∧
        List.lookup "exp" claims =
          some (.num (((123456 + 500) / 1000 + 1000 : Nat) : Int))) :=
  ⟨by decide, rfl,
    C3_exp_is_now_plus_1000_and_overwrites "mysecret" "\x7b\"exp\":5\x7d" 123456
      [("exp", Json.num 5)] (by decide) rfl⟩

theorem jwtHeader_stringify : Json.stringify jwtHeader = headerJSONText := rfl

theorem b64u_data_props (bs : List Nat) :
    ∀ c ∈ (b64u bs).data, c ∈ b64Alphabet ∧ c ≠ '.' ∧ c ≠ '=' := by
  intro c hc
  have hc2 : c ∈ b64uChars bs := hc
  have h1 := b64uChars_subset bs c hc2
  exact ⟨h1, (b64Alphabet_ne_dot_pad c h1).1, (b64Alphabet_ne_dot_pad c h1).2⟩

/-- C1: with a non-empty secret and an object payload, `main` returns a
token of exactly three non-`.` segments joined by `.`, every segment
drawn from the base64url alphabet with no `=` padding, and the first
segment is the base64url encoding of (and decodes back to) exactly the
JSON text of `{alg:"HS256",typ:"JWT"}` with that key order. -/
theorem C1_token_is_three_b64u_segments_with_exact_header (S p : String) (t : Nat)
    (kvs : List (String × Json)) (hS : S ≠ "") (hp : jsonParse p = some (.obj kvs)) :
    ∃ r s2 s3, CreateJwt.main S p t = .ok r ∧
      r.token = b64u (utf8Encode headerJSONText) ++ "." ++ s2 ++ "." ++ s3 ∧
      b64uDecode (b64u (utf8Encode headerJSONText)) = utf8Encode headerJSONText ∧
      (∀ c ∈ (b64u (utf8Encode headerJSONText)).data, c ∈ b64Alphabet ∧ c ≠ '.' ∧ c ≠ '=') ∧
      (∀ c ∈ s2.data, c ∈ b64Alphabet ∧ c ≠ '.' ∧ c ≠ '=') ∧
      (∀ c ∈ s3.data, c ∈ b64Alphabet ∧ c ≠ '.' ∧ c ≠ '=') := by
  refine ⟨_,
    b64u (utf8Encode (Json.stringify (.obj (setKey kvs "exp" (.num (getNumericDate 1000 t)))))),
    b64u (hmacSha256 (utf8Encode S)
      (utf8Encode (Djwtv3.createSigningInput jwtHeader
        (.obj (setKey kvs "exp" (.num (getNumericDate 1000 t))))))),
    main_eq_ok_obj S p t kvs hS hp, rfl,
    b64uDecode_b64u _ (utf8Encode_lt _),
    b64u_data_props _, b64u_data_props _, b64u_data_props _⟩

theorem C1_witness :
    (("k" : String) ≠ "") ∧ jsonParse "\x7b\x7d" = some (.obj []) ∧
      (∃ r s2 s3, CreateJwt.main "k" "\x7b\x7d" 0 = .ok r ∧
        r.token = b64u (utf8Encode headerJSONText) ++ "." ++ s2 ++ "." ++ s3 ∧
        b64uDecode (b64u (utf8Encode headerJSONText)) = utf8Encode headerJSONText ∧
        (∀ c ∈ (b64u (utf8Encode headerJSONText)).data, c ∈ b64Alphabet ∧ c ≠ '.' ∧ c ≠ '=') ∧
        (∀ c ∈ s2.data, c ∈ b64Alphabet ∧ c ≠ '.' ∧ c ≠ '=') ∧
        (∀ c ∈ s3.data, c ∈ b64Alphabet ∧ c ≠ '.' ∧ c ≠ '=')) :=
  ⟨by decide, rfl,
    C1_token_is_three_b64u_segments_with_exact_header "k" "\x7b\x7d" 0 [] (by decide) rfl⟩

/-- C2: on every successful call (the payload parses to an object or an
array - the two non-failing cases - and the secret is usable), the
token's third segment is the base64url encoding of the HMAC-SHA256
signature of the bytes of `headerSegment ++ "." ++ payloadSegment`,
keyed with exactly the UTF-8 bytes of the caller's secret string. -/
theorem C2_signature_is_hmac_sha256_of_signing_input (S p : String) (t : Nat)
    (v : Json) (hS : S ≠ "") (hp : jsonParse p = some v) (hv : jsPrimitive v = false) :
    ∃ r p2, CreateJwt.main S p t = .ok r ∧
      r.token = b64u (utf8Encode (Json.stringify jwtHeader)) ++ "." ++ p2 ++ "." ++
        b64u (hmacSha256 (utf8Encode S)
          (utf8Encode (b64u (utf8Encode (Json.stringify jwtHeader)) ++ "." ++ p2))) := by
  cases v with
  | null => simp [jsPrimitive] at hv
  | bool b => simp [jsPrimitive] at hv
  | num n => simp [jsPrimitive] at hv
  | str s => simp [jsPrimitive] at hv
  | arr xs =>
    exact ⟨_, b64u (utf8Encode (Json.stringify (.arr xs))),
      main_eq_ok_arr S p t xs hS hp, rfl⟩
  | obj kvs =>
    exact ⟨_, b64u (utf8Encode (Json.stringify
        (.obj (setKey kvs "exp" (.num (getNumericDate 1000 t)))))),
      main_eq_ok_obj S p t kvs hS hp, rfl⟩

theorem C2_witness :
    (("k" : String) ≠ "") ∧ jsonParse "\x7b\x7d" = some (.obj []) ∧
      jsPrimitive (.obj []) = false ∧
      (∃ r p2, CreateJwt.main "k" "\x7b\x7d" 7 = .ok r ∧
        r.token = b64u (utf8Encode (Json.stringify jwtHeader)) ++ "." ++ p2 ++ "." ++
          b64u (hmacSha256 (utf8Encode "k")
            (utf8Encode (b64u (utf8Encode (Json.stringify jwtHeader)) ++ "." ++ p2)))) :=
  ⟨by decide, rfl, rfl,
    C2_signature_is_hmac_sha256_of_signing_input "k" "\x7b\x7d" 7 (.obj []) (by decide) rfl rfl⟩

/-- C4: the token's payload segment encodes (and decodes back to)
exactly the parsed payload object with only `exp` set or replaced: every
member other than `exp` is preserved with its value and relative order
(`List.filter` equality) and its lookup result, `exp` maps to the fresh
timestamp, and that timestamp lies between the call's UNIX second and
the call's UNIX second plus the 1000-second lifetime plus one second of
rounding tolerance. -/
theorem C4_payload_is_object_with_only_exp_replaced (S p : String) (t : Nat)
    (kvs : List (String × Json)) (hS : S ≠ "") (hp : jsonParse p = some (.obj kvs)) :
    ∃ r e s3, CreateJwt.main S p t = .ok r ∧
      e = getNumericDate 1000 t ∧
      r.token = b64u (utf8Encode headerJSONText) ++ "." ++
        b64u (utf8Encode (Json.stringify (.obj (setKey kvs "exp" (.num e))))) ++ "." ++ s3 ∧
      b64uDecode (b64u (utf8Encode (Json.stringify (.obj (setKey kvs "exp" (.num e)))))) =
        utf8Encode (Json.stringify (.obj (setKey kvs "exp" (.num e)))) ∧
      (setKey kvs "exp" (.num e)).filter (fun q => q.1 != "exp") =
        kvs.filter (fun q => q.1 != "exp") ∧
      (∀ k, k ≠ "exp" →
        List.lookup k (setKey kvs "exp" (.num e)) = List.lookup k kvs) ∧
      List.lookup "exp" (setKey kvs "exp" (.num e)) = some (.num e) ∧
      t / 1000 ≤ e ∧ e ≤ t / 1000 + 1001 := by
  refine ⟨_, getNumericDate 1000 t,
    b64u (hmacSha256 (utf8Encode S)
      (utf8Encode (Djwtv3.createSigningInput jwtHeader
        (.obj (setKey kvs "exp" (.num (getNumericDate 1000 t))))))),
    main_eq_ok_obj S p t kvs hS hp, rfl, rfl,
    b64uDecode_b64u _ (utf8Encode_lt _),
    filter_setKey kvs "exp" _,
    (fun k hk => lookup_setKey_ne kvs "exp" k _ hk),
    lookup_setKey_self kvs "exp" _, ?_, ?_⟩ <;>
  · rw [getNumericDate_eq]
    omega

theorem C4_witness :
    (("k" : String) ≠ "") ∧
      jsonParse "\x7b\"sub\":\"u1\"\x7d" = some (.obj [("sub", .str "u1")]) ∧
      (∃ r e s3, CreateJwt.main "k" "\x7b\"sub\":\"u1\"\x7d" 5000 = .ok r ∧
        e = getNumericDate 1000 5000 ∧
        r.token = b64u (utf8Encode headerJSONText) ++ "." ++
          b64u (utf8Encode (Json.stringify
            (.obj (setKey [("sub", Json.str "u1")] "exp" (.num e))))) ++ "." ++ s3 ∧
        b64uDecode (b64u (utf8Encode (Json.stringify
            (.obj (setKey [("sub", Json.str "u1")] "exp" (.num e)))))) =
          utf8Encode (Json.stringify (.obj (setKey [("sub", Json.str "u1")] "exp" (.num e)))) ∧
        (setKey [("sub", Json.str "u1")] "exp" (.num e)).filter (fun q => q.1 != "exp") =
          [("sub", Json.str "u1")].filter (fun q => q.1 != "exp") ∧
        (∀ k, k ≠ "exp" →
          List.lookup k (setKey [("sub", Json.str "u1")] "exp" (.num e)) =
            List.lookup k [("sub", Json.str "u1")]) ∧
        List.lookup "exp" (setKey [("sub", Json.str "u1")] "exp" (.num e)) = some (.num e) ∧
        5000 / 1000 ≤ e ∧ e ≤ 5000 / 1000 + 1001) :=
  ⟨by decide, rfl,
    C4_payload_is_object_with_only_exp_replaced "k" "\x7b\"sub\":\"u1\"\x7d" 5000
      [("sub", Json.str "u1")] (by decide) rfl⟩

/-- C8: a payload that parses to a JSON array does not make `main` fail:
the strict-mode assignment `payloadData.exp = ...` on an array value
succeeds as an expando property which `JSON.stringify` drops, so the
token's payload segment encodes (and decodes back to) the serialization
of exactly the original array, with no `exp` member anywhere. -/
theorem C8_array_payload_signs_original_array_without_exp (S p : String) (t : Nat)
    (xs : List Json) (hS : S ≠ "") (hp : jsonParse p = some (.arr xs)) :
    ∃ r s3, CreateJwt.main S p t = .ok r ∧
      r.token = b64u (utf8Encode headerJSONText) ++ "." ++
        b64u (utf8Encode (Json.stringify (.arr xs))) ++ "." ++ s3 ∧
      b64uDecode (b64u (utf8Encode (Json.stringify (.arr xs)))) =
        utf8Encode (Json.stringify (.arr xs)) := by
  refine ⟨_,
    b64u (hmacSha256 (utf8Encode S)
      (utf8Encode (Djwtv3.createSigningInput jwtHeader (.arr xs)))),
    main_eq_ok_arr S p t xs hS hp, rfl,
    b64uDecode_b64u _ (utf8Encode_lt _)⟩

theorem C8_witness :
    (("k" : String) ≠ "") ∧
      jsonParse "[1,2,3]" = some (.arr [.num 1, .num 2, .num 3]) ∧
      (∃ r s3, CreateJwt.main "k" "[1,2,3]" 0 = .ok r ∧
        r.token = b64u (utf8Encode headerJSONText) ++ "." ++
          b64u (utf8Encode (Json.stringify (.arr [.num 1, .num 2, .num 3]))) ++ "." ++ s3 ∧
        b64uDecode (b64u (utf8Encode (Json.stringify (.arr [.num 1, .num 2, .num 3])))) =
          utf8Encode (Json.stringify (.arr [.num 1, .num 2, .num 3]))) :=
  ⟨by decide, rfl,
    C8_array_payload_signs_original_array_without_exp "k" "[1,2,3]" 0
      [.num 1, .num 2, .num 3] (by decide) rfl⟩

theorem utf8Char_digit (d : Nat) (hd : d < 10) :
    utf8Char (Char.ofNat (48 + d)) = [48 + d] := by
  interval_cases d <;> decide

theorem utf8_digit_list (l : List Nat) (hl : ∀ d ∈ l, d < 10) :
    (((l.map fun d => Char.ofNat (48 + d)).map utf8Char)).flatten =
      l.map fun d => 48 + d := by
  induction l with
  | nil => rfl
  | cons d rest ih =>
    simp only [List.map_cons, List.flatten_cons]
    rw [utf8Char_digit d (hl d (by simp)), ih fun a ha => hl a (by simp [ha])]
    rfl

theorem utf8Encode_natDec_pos (n : Nat) (hn : 0 < n) :
    utf8Encode (natDec n) = (Nat.digits 10 n).reverse.map fun d => 48 + d := by
  unfold natDec
  rw [if_neg (by omega)]
  show (((Nat.digits 10 n).reverse.map fun d => Char.ofNat (48 + d)).map utf8Char).flatten = _
  exact utf8_digit_list _ fun d hd =>
    Nat.digits_lt_base (by norm_num) (List.mem_reverse.mp hd)

theorem utf8Encode_natDec_zero : utf8Encode (natDec 0) = [48] := rfl

theorem utf8Encode_natDec_inj (n m : Nat)
    (h : utf8Encode (natDec n) = utf8Encode (natDec m)) : n = m := by
  have hadd : Function.Injective fun d : Nat => 48 + d := by
    intro a b hab
    have hab2 : 48 + a = 48 + b := hab
    omega
  rcases Nat.eq_zero_or_pos n with hn | hn <;> rcases Nat.eq_zero_or_pos m with hm | hm
  · omega
  · exfalso
    subst hn
    rw [utf8Encode_natDec_zero, utf8Encode_natDec_pos m hm] at h
    have h2 : (Nat.digits 10 m).reverse.map (fun d => 48 + d) = [0].map fun d => 48 + d :=
      by simpa using h.symm
    have h3 : (Nat.digits 10 m).reverse = [0] := List.map_injective_iff.mpr hadd h2
    have h4 : Nat.digits 10 m = [0] := by
      have := congrArg List.reverse h3
      simpa using this
    have h5 := Nat.ofDigits_digits 10 m
    rw [h4] at h5
    simp at h5
    omega
  · exfalso
    subst hm
    rw [utf8Encode_natDec_zero, utf8Encode_natDec_pos n hn] at h
    have h2 : (Nat.digits 10 n).reverse.map (fun d => 48 + d) = [0].map fun d => 48 + d :=
      by simpa using h
    have h3 : (Nat.digits 10 n).reverse = [0] := List.map_injective_iff.mpr hadd h2
    have h4 : Nat.digits 10 n = [0] := by
      have := congrArg List.reverse h3
      simpa using this
    have h5 := Nat.ofDigits_digits 10 n
    rw [h4] at h5
    simp at h5
    omega
  · rw [utf8Encode_natDec_pos n hn, utf8Encode_natDec_pos m hm] at h
    have h3 : (Nat.digits 10 n).reverse = (Nat.digits 10 m).reverse :=
      List.map_injective_iff.mpr hadd h
    have h4 : Nat.digits 10 n = Nat.digits 10 m := List.reverse_injective h3
    have h5 := Nat.ofDigits_digits 10 n
    rw [h4, Nat.ofDigits_digits 10 m] at h5
    omega

theorem intDec_ofNat (n : Nat) : intDec (Int.ofNat n) = natDec n := by
  have h : ¬ Int.ofNat n < 0 := not_lt.mpr (Int.ofNat_nonneg n)
  unfold intDec
  rw [if_neg h]
  rfl

theorem utf8Encode_empty : utf8Encode "" = [] := rfl

theorem members_setKey_exp_split (kvs : List (String × Json)) :
    ∃ A B : List Nat, ∀ e : Int,
      utf8Encode (stringifyMembers (setKey kvs "exp" (.num e))) =
        A ++ utf8Encode (intDec e) ++ B := by
  induction kvs with
  | nil =>
    refine ⟨utf8Encode (quoteString "exp" ++ ":"), [], fun e => ?_⟩
    show utf8Encode (stringifyMembers [("exp", .num e)]) = _
    simp only [stringifyMembers, Json.stringify, List.isEmpty_nil, if_pos]
    simp [utf8Encode_append, utf8Encode_empty]
  | cons kv rest ih =>
    rcases kv with ⟨k, v⟩
    by_cases hk : k = "exp"
    · subst hk
      refine ⟨utf8Encode (quoteString "exp" ++ ":"),
        utf8Encode (if rest.isEmpty then "" else ",") ++ utf8Encode (stringifyMembers rest),
        fun e => ?_⟩
      show utf8Encode (stringifyMembers (("exp", Json.num e) :: rest)) = _
      simp only [stringifyMembers, Json.stringify]
      simp [utf8Encode_append, List.append_assoc]
    · obtain ⟨A, B, hAB⟩ := ih
      refine ⟨utf8Encode (quoteString k ++ ":" ++ Json.stringify v ++ ",") ++ A, B,
        fun e => ?_⟩
      have hconsEq : setKey ((k, v) :: rest) "exp" (.num e) =
          (k, v) :: setKey rest "exp" (.num e) := by
        simp [setKey, hk]
      rw [hconsEq]
      have hite : (if (setKey rest "exp" (.num e)).isEmpty then ("" : String) else ",") = "," := by
        rw [if_neg]
        intro hemp
        exact setKey_ne_nil rest "exp" (.num e) (List.isEmpty_iff.mp hemp)
      simp only [stringifyMembers, hite]
      rw [show quoteString k ++ ":" ++ Json.stringify v ++ "," ++
            stringifyMembers (setKey rest "exp" (.num e)) =
          (quoteString k ++ ":" ++ Json.stringify v ++ ",") ++
            stringifyMembers (setKey rest "exp" (.num e)) from rfl]
      rw [utf8Encode_append, hAB e]
      simp [List.append_assoc]

theorem stringify_setKey_exp_split (kvs : List (String × Json)) :
    ∃ A B : List Nat, ∀ e : Int,
      utf8Encode (Json.stringify (.obj (setKey kvs "exp" (.num e)))) =
        A ++ utf8Encode (intDec e) ++ B := by
  obtain ⟨A, B, hAB⟩ := members_setKey_exp_split kvs
  refine ⟨utf8Encode "\x7b" ++ A, B ++ utf8Encode "\x7d", fun e => ?_⟩
  simp only [Json.stringify]
  rw [utf8Encode_append, utf8Encode_append, hAB e]
  simp [List.append_assoc]

theorem payload_bytes_ne (kvs : List (String × Json)) (e1 e2 : Nat) (hne : e1 ≠ e2) :
    utf8Encode (Json.stringify (.obj (setKey kvs "exp" (.num (Int.ofNat e1))))) ≠
      utf8Encode (Json.stringify (.obj (setKey kvs "exp" (.num (Int.ofNat e2))))) := by
  obtain ⟨A, B, hAB⟩ := stringify_setKey_exp_split kvs
  rw [hAB, hAB]
  intro h
  rw [List.append_assoc, List.append_assoc] at h
  have h1 := List.append_cancel_left h
  have h2 := List.append_cancel_right h1
  rw [intDec_ofNat, intDec_ofNat] at h2
  exact hne (utf8Encode_natDec_inj e1 e2 h2)

theorem payload_segments_ne (kvs : List (String × Json)) (e1 e2 : Nat) (hne : e1 ≠ e2) :
    b64u (utf8Encode (Json.stringify (.obj (setKey kvs "exp" (.num (Int.ofNat e1)))))) ≠
      b64u (utf8Encode (Json.stringify (.obj (setKey kvs "exp" (.num (Int.ofNat e2)))))) := by
  intro h
  exact payload_bytes_ne kvs e1 e2 hne
    (b64u_inj _ _ (utf8Encode_lt _) (utf8Encode_lt _) h)

theorem append_dot_inj (a : List Char) :
    ∀ (b x y : List Char), '.' ∉ a → '.' ∉ b →
      a ++ '.' :: x = b ++ '.' :: y → a = b ∧ x = y := by
  induction a with
  | nil =>
    intro b x y _ hb h
    cases b with
    | nil => simpa using h
    | cons c bs =>
      exfalso
      rw [List.nil_append, List.cons_append] at h
      injection h with h1 h2
      exact hb (List.mem_cons.mpr (Or.inl h1))
  | cons c as ih =>
    intro b x y ha hb h
    cases b with
    | nil =>
      exfalso
      rw [List.nil_append, List.cons_append] at h
      injection h with h1 h2
      exact ha (List.mem_cons.mpr (Or.inl h1.symm))
    | cons c2 bs =>
      rw [List.cons_append, List.cons_append] at h
      injection h with h1 h2
      subst h1
      have has : '.' ∉ as := fun hm => ha (by simp [hm])
      have hbs : '.' ∉ bs := fun hm => hb (by simp [hm])
      obtain ⟨hab, hxy⟩ := ih bs x y has hbs h2
      exact ⟨by rw [hab], hxy⟩

theorem token_ne_of_payload_ne (H p1 p2 s1 s2 : String)
    (hp1 : ∀ c ∈ p1.data, c ≠ '.') (hp2 : ∀ c ∈ p2.data, c ≠ '.')
    (hne : p1 ≠ p2) :
    H ++ "." ++ p1 ++ "." ++ s1 ≠ H ++ "." ++ p2 ++ "." ++ s2 := by
  intro h
  have hd := congrArg String.data h
  simp only [String.data_append, List.append_assoc, List.singleton_append] at hd
  have hd2 : ('.' : Char) :: (p1.data ++ '.' :: s1.data) =
      '.' :: (p2.data ++ '.' :: s2.data) := by
    have := List.append_cancel_left hd
    simpa using this
  injection hd2 with _ hd3
  have hnm1 : '.' ∉ p1.data := fun hm => hp1 '.' hm rfl
  have hnm2 : '.' ∉ p2.data := fun hm => hp2 '.' hm rfl
  obtain ⟨heq, -⟩ := append_dot_inj p1.data p2.data s1.data s2.data hnm1 hnm2 hd3
  exact hne (String.ext heq)

/-- C6 counterexample: two calls at different `Date.now()` readings (0 ms
and 100 ms) that fall in the same rounded second produce byte-identical
tokens, refuting "two calls made at two different times return different
token strings". -/
theorem C6_counterexample_different_times_same_token :
    (0 : Nat) ≠ 100 ∧
      CreateJwt.main "secret" "\x7b\x7d" 0 = CreateJwt.main "secret" "\x7b\x7d" 100 := by
  refine ⟨by omega, ?_⟩
  rw [main_eq_ok_obj "secret" "\x7b\x7d" 0 [] (by decide) rfl,
    main_eq_ok_obj "secret" "\x7b\x7d" 100 [] (by decide) rfl]
  have h : getNumericDate 1000 0 = getNumericDate 1000 100 := by decide
  rw [h]

/-- C6 amended: two calls whose clock readings round to different `exp`
values return different tokens, and the tokens differ only in the
payload segment's `exp` and in the signature: the header segment is the
same constant, the payload segments encode the same members except at
key `exp`, and each signature is determined by its own signing input. -/
theorem C6_amended_distinct_exp_gives_distinct_tokens (S p : String) (t1 t2 : Nat)
    (kvs : List (String × Json)) (hS : S ≠ "") (hp : jsonParse p = some (.obj kvs))
    (hne : getNumericDate 1000 t1 ≠ getNumericDate 1000 t2) :
    ∃ r1 r2 p1 p2 s1 s2,
      CreateJwt.main S p t1 = .ok r1 ∧ CreateJwt.main S p t2 = .ok r2 ∧
      r1.token = b64u (utf8Encode headerJSONText) ++ "." ++ p1 ++ "." ++ s1 ∧
      r2.token = b64u (utf8Encode headerJSONText) ++ "." ++ p2 ++ "." ++ s2 ∧
      p1 = b64u (utf8Encode (Json.stringify
        (.obj (setKey kvs "exp" (.num (getNumericDate 1000 t1)))))) ∧
      p2 = b64u (utf8Encode (Json.stringify
        (.obj (setKey kvs "exp" (.num (getNumericDate 1000 t2)))))) ∧
      s1 = b64u (hmacSha256 (utf8Encode S)
        (utf8Encode (b64u (utf8Encode headerJSONText) ++ "." ++ p1))) ∧
      s2 = b64u (hmacSha256 (utf8Encode S)
        (utf8Encode (b64u (utf8Encode headerJSONText) ++ "." ++ p2))) ∧
      (setKey kvs "exp" (.num (getNumericDate 1000 t1))).filter (fun q => q.1 != "exp") =
        (setKey kvs "exp" (.num (getNumericDate 1000 t2))).filter (fun q => q.1 != "exp") ∧
      p1 ≠ p2 ∧
      r1.token ≠ r2.token := by
  refine ⟨_, _, _, _, _, _,
    main_eq_ok_obj S p t1 kvs hS hp, main_eq_ok_obj S p t2 kvs hS hp,
    rfl, rfl, rfl, rfl, rfl, rfl, ?_, ?_, ?_⟩
  · rw [filter_setKey, filter_setKey]
  · exact payload_segments_ne kvs _ _ hne
  · exact token_ne_of_payload_ne _ _ _ _ _
      (fun c hc => (b64u_data_props _ c hc).2.1)
      (fun c hc => (b64u_data_props _ c hc).2.1)
      (payload_segments_ne kvs _ _ hne)

theorem C6_amended_witness :
    (("k" : String) ≠ "") ∧ jsonParse "\x7b\x7d" = some (.obj []) ∧
      getNumericDate 1000 0 ≠ getNumericDate 1000 2000000 ∧
      (∃ r1 r2 p1 p2 s1 s2,
        CreateJwt.main "k" "\x7b\x7d" 0 = .ok r1 ∧
        CreateJwt.main "k" "\x7b\x7d" 2000000 = .ok r2 ∧
        r1.token = b64u (utf8Encode headerJSONText) ++ "." ++ p1 ++ "." ++ s1 ∧
        r2.token = b64u (utf8Encode headerJSONText) ++ "." ++ p2 ++ "." ++ s2 ∧
        p1 = b64u (utf8Encode (Json.stringify
          (.obj (setKey [] "exp" (.num (getNumericDate 1000 0)))))) ∧
        p2 = b64u (utf8Encode (Json.stringify
          (.obj (setKey [] "exp" (.num (getNumericDate 1000 2000000)))))) ∧
        s1 = b64u (hmacSha256 (utf8Encode "k")
          (utf8Encode (b64u (utf8Encode headerJSONText) ++ "." ++ p1))) ∧
        s2 = b64u (hmacSha256 (utf8Encode "k")
          (utf8Encode (b64u (utf8Encode headerJSONText) ++ "." ++ p2))) ∧
        (setKey [] "exp" (.num (getNumericDate 1000 0))).filter (fun q => q.1 != "exp") =
          (setKey [] "exp" (.num (getNumericDate 1000 2000000))).filter
            (fun q => q.1 != "exp") ∧
        p1 ≠ p2 ∧
        r1.token ≠ r2.token) :=
  ⟨by decide, rfl, by decide,
    C6_amended_distinct_exp_gives_distinct_tokens "k" "\x7b\x7d" 0 2000000 []
      (by decide) rfl (by decide)⟩
